import Mathlib

/-!
Verification development for the operation-descriptor synthesis engine of
`xicam/plugins/operationplugin.py` (Xi-cam.plugins repository).

The Python module is shallowly embedded: Python dicts become association
lists with Python's update-in-place semantics (`pySet`, `pyUpdate`), the
metadata-annotator decorators become functions on a `Func` record that
models a callable together with its attached attributes and its inspected
signature, the `operation` factory becomes `operation : Func → OpArgs →
Except OpError OpClass`, and the parameter projection `as_parameter`
becomes `asParameter`.
-/

namespace Xicam

/-- Python runtime values, as far as the operation-plugin module handles
them: `vnone` is Python `None`, `vempty` is the `inspect.Parameter.empty`
sentinel class (which is truthy), the rest are ordinary literals and
containers. -/
inductive Value where
  | vnone
  | vempty
  | bool (b : Bool)
  | int (n : Int)
  | str (s : String)
  | list (l : List Value)
  | tuple (l : List Value)
  | dict (d : List (String × Value))

/-- A Python `dict` with string keys, in insertion order. -/
abbrev Dict := List (String × Value)

/-- Python truthiness (`bool(v)`) for the values above. -/
def vTruthy : Value → Bool
  | .vnone => false
  | .vempty => true
  | .bool b => b
  | .int n => n != 0
  | .str s => !s.isEmpty
  | .list l => !l.isEmpty
  | .tuple l => !l.isEmpty
  | .dict d => !d.isEmpty

/-- `d.get(k)` / `d[k]` lookup: the entry for `k` (a dict holds at most
one entry per key). -/
def pyGet? : Dict → String → Option Value
  | [], _ => none
  | p :: d, k => if p.1 == k then some p.2 else pyGet? d k

/-- `k in d` for a dict. -/
def pyContains (d : Dict) (k : String) : Bool :=
  d.any (fun p => p.1 == k)

/-- `d[k] = v`: overwrite the entry in place when the key exists (a dict
holds at most one entry per key), append a new entry otherwise. -/
def pySet : Dict → String → Value → Dict
  | [], k, v => [(k, v)]
  | p :: d, k, v => if p.1 == k then (k, v) :: d else p :: pySet d k v

/-- `d.update(e)`. -/
def pyUpdate (d e : Dict) : Dict :=
  e.foldl (fun acc p => pySet acc p.1 p.2) d

/-- `x or y` where `x` is an optional dict (Python `None` or a dict). -/
def dictOr (x : Option Dict) (y : Dict) : Dict :=
  match x with
  | some d => if d.isEmpty then y else d
  | none => y

/-- `x or y` for optional lists. -/
def listOr (x : Option (List Value)) (y : List Value) : List Value :=
  match x with
  | some l => if l.isEmpty then y else l
  | none => y

/-- `x or y` for an optional string against an optional-string fallback
(the fallback itself may be Python `None`). -/
def strOr (x : Option String) (y : Option String) : Option String :=
  match x with
  | some s => if s.isEmpty then y else some s
  | none => y

/-- Python `sub in s` substring test on strings. -/
def strContains (s sub : String) : Bool :=
  (List.range (s.toList.length + 1)).any
    (fun i => sub.toList.isPrefixOf (s.toList.drop i))

/-- A declared parameter of the wrapped callable, as `inspect.signature`
reports it: its name, the `__name__` of its type annotation (`none` when
unannotated), and its default value (`none` models
`inspect.Parameter.empty`, i.e. a required parameter). -/
structure Param where
  name : String
  annot : Option String := none
  default : Option Value := none

/-- The value of the `input_names` / `output_names` factory argument: the
factory accepts either a bare string or a sequence of names. -/
inductive NamesArg where
  | str (s : String)
  | seq (l : List String)

/-- The merged `output_names` value stored on a synthesized descriptor
class. Because the factory's fallback chain
`output_names or getattr(func, 'output_names', getattr(func, "__name__", tuple()))`
can produce the callable's `__name__`, the stored value can be a bare
string as well as a tuple. -/
inductive NamesVal where
  | str (s : String)
  | tup (l : List String)

/-- `len(...)` of a stored names value. -/
def NamesVal.len : NamesVal → Nat
  | .str s => s.length
  | .tup l => l.length

/-- Python `a in names`: substring test when the stored value is a string,
membership when it is a tuple. -/
def namesMem : NamesVal → String → Bool
  | .str s, a => strContains s a
  | .tup l, a => l.contains a

/-- A Python callable as the module sees it: its intrinsic `__name__` (a
callable such as a `functools.partial` may lack one), its inspected
signature, and the attributes that the annotator decorators may have
attached to the function object. -/
structure Func where
  intrinsicName : Option String := none
  params : List Param := []
  attrName : Option String := none
  attrInputNames : Option (List String) := none
  attrOutputNames : Option (List String) := none
  attrOutputShape : Option Dict := none
  attrInputDescriptions : Option Dict := none
  attrOutputDescriptions : Option Dict := none
  attrCategories : Option (List Value) := none
  attrLimits : Option Dict := none
  attrUnits : Option Dict := none
  attrFixed : Option Dict := none
  attrFixable : Option Dict := none
  attrVisible : Option Dict := none
  attrOpts : Option Dict := none
  attrHints : Option (List Value) := none

/-- The `display_name(name)` decorator: `func.name = name`. -/
def display_name_deco (n : String) (f : Func) : Func :=
  { f with attrName := some n }

/-- The `units(arg_name, unit)` decorator via `_quick_set`. -/
def units_deco (arg : String) (unit : String) (f : Func) : Func :=
  { f with attrUnits := some (pySet (f.attrUnits.getD []) arg (.str unit)) }

/-- The `fixed(arg_name, fix=True)` decorator via `_quick_set`. -/
def fixed_deco (arg : String) (fix : Bool) (f : Func) : Func :=
  { f with attrFixed := some (pySet (f.attrFixed.getD []) arg (.bool fix)) }

/-- The `limits(arg_name, limit)` decorator via `_quick_set`. -/
def limits_deco (arg : String) (limit : Value) (f : Func) : Func :=
  { f with attrLimits := some (pySet (f.attrLimits.getD []) arg limit) }

/-- The `visible(arg_name, is_visible=True)` decorator via `_quick_set`. -/
def visible_deco (arg : String) (isVisible : Bool) (f : Func) : Func :=
  { f with attrVisible := some (pySet (f.attrVisible.getD []) arg (.bool isVisible)) }

/-- The `opts(arg_name, **options)` decorator via `_quick_set`: it stores
the whole keyword bag as the entry for `arg_name`. -/
def opts_deco (arg : String) (options : Dict) (f : Func) : Func :=
  { f with attrOpts := some (pySet (f.attrOpts.getD []) arg (.dict options)) }

/-- The `output_shape(arg_name, shape)` decorator via `_quick_set`. -/
def output_shape_deco (arg : String) (shape : Value) (f : Func) : Func :=
  { f with attrOutputShape := some (pySet (f.attrOutputShape.getD []) arg shape) }

/-- The `input_names(*names)` decorator: wholesale replacement. -/
def input_names_deco (names : List String) (f : Func) : Func :=
  { f with attrInputNames := some names }

/-- The `output_names(*names)` decorator: wholesale replacement. -/
def output_names_deco (names : List String) (f : Func) : Func :=
  { f with attrOutputNames := some names }

/-- The `describe_input(arg_name, description)` decorator. -/
def describe_input_deco (arg : String) (description : String) (f : Func) : Func :=
  let d := pySet (f.attrInputDescriptions.getD []) arg (.str description)
  { f with attrInputDescriptions := some d }

/-- The `describe_output(arg_name, description)` decorator. -/
def describe_output_deco (arg : String) (description : String) (f : Func) : Func :=
  let d := pySet (f.attrOutputDescriptions.getD []) arg (.str description)
  { f with attrOutputDescriptions := some d }

/-- The explicit keyword arguments of the `operation(...)` factory; `none`
models an omitted argument (Python `None`). -/
structure OpArgs where
  filled_values : Option Dict := none
  fixable : Option Dict := none
  fixed : Option Dict := none
  input_names : Option NamesArg := none
  output_names : Option NamesArg := none
  limits : Option Dict := none
  opts : Option Dict := none
  output_shape : Option Dict := none
  units : Option Dict := none
  visible : Option Dict := none
  name : Option String := none
  input_descriptions : Option Dict := none
  output_descriptions : Option Dict := none
  categories : Option (List Value) := none

/-- The "Allow passing a string" normalization at the top of `operation`:
a bare string becomes a one-element tuple. -/
def normNames : NamesArg → List String
  | .str s => [s]
  | .seq l => l

/-- The errors `operation` can raise: the `NameError` for an unnamed
operation, and `ValidationError` (carrying the aggregated message) from
`OperationPlugin._validate`. -/
inductive OpError where
  | nameError
  | validationError (msg : String)

/-- The synthesized descriptor class
`type('WrappedOperationPlugin', (OperationPlugin,), state)` together with
its bound `_func`.  The `state` dict of the source stores the merged
input descriptions under the misspelled key `"input_description"`
(operationplugin.py line 395), so the synthesized class carries that extra
attribute while its `input_descriptions` attribute stays the base class's
empty dict; both are modelled as separate fields here. -/
structure OpClass where
  func : Func
  name : Option String
  input_names : List String
  output_names : NamesVal
  output_shape : Dict
  input_description : Dict
  input_descriptions : Dict
  output_descriptions : Dict
  categories : List Value
  filled_values : Dict
  limits : Dict
  units : Dict
  fixed : Dict
  fixable : Dict
  visible : Dict
  opts : Dict
  hints : List Value

/-- `state["name"]`: `name or getattr(func, 'name', getattr(func, '__name__', None))`. -/
def mergedName (f : Func) (a : OpArgs) : Option String :=
  strOr a.name (match f.attrName with
    | some s => some s
    | none => f.intrinsicName)

/-- `state["input_names"]`:
`input_names or getattr(func, 'input_names', tuple(inspect.signature(func).parameters.keys()))`. -/
def mergedInputNames (f : Func) (a : OpArgs) : List String :=
  let fallback := match f.attrInputNames with
    | some l => l
    | none => f.params.map (·.name)
  match a.input_names with
  | some n => if (normNames n).isEmpty then fallback else normNames n
  | none => fallback

/-- `state["output_names"]`:
`output_names or getattr(func, 'output_names', getattr(func, "__name__", tuple()))`.
Note the last fallback: with no decorator attribute, the merged value is
the callable's `__name__` as a bare string (or the empty tuple for a
callable without `__name__`). -/
def mergedOutputNames (f : Func) (a : OpArgs) : NamesVal :=
  let fallback : NamesVal := match f.attrOutputNames with
    | some l => .tup l
    | none => match f.intrinsicName with
      | some s => .str s
      | none => .tup []
  match a.output_names with
  | some n => if (normNames n).isEmpty then fallback else .tup (normNames n)
  | none => fallback

/-- The full merged `state` dict plus the bound `_func`, as built by
`operation` before the name check and validation run. -/
def mergedClass (f : Func) (a : OpArgs) : OpClass :=
  { func := f
    name := mergedName f a
    input_names := mergedInputNames f a
    output_names := mergedOutputNames f a
    output_shape := dictOr a.output_shape (f.attrOutputShape.getD [])
    input_description := dictOr a.input_descriptions (f.attrInputDescriptions.getD [])
    input_descriptions := []
    output_descriptions := dictOr a.output_descriptions (f.attrOutputDescriptions.getD [])
    categories := listOr a.categories (f.attrCategories.getD [])
    filled_values := dictOr a.filled_values []
    limits := dictOr a.limits (f.attrLimits.getD [])
    units := dictOr a.units (f.attrUnits.getD [])
    fixed := dictOr a.fixed (f.attrFixed.getD [])
    fixable := dictOr a.fixable (f.attrFixable.getD [])
    visible := dictOr a.visible (f.attrVisible.getD [])
    opts := dictOr a.opts (f.attrOpts.getD [])
    hints := f.attrHints.getD [] }

/-- One `"{arg}" is not a valid input/output for "{name}". ` message piece
appended to `invalid_msg` by `_validate`. -/
def invalidPiece (arg mapname kind : String) : String :=
  "\"" ++ arg ++ "\" is not a valid " ++ kind ++ " for \"" ++ mapname ++ "\". "

/-- The messages contributed by one per-input metadata map: one piece per
key that is not among `input_names`, in the map's iteration order. -/
def inputMapMsgs (ins : List String) (mapname : String) (d : Dict) : List String :=
  (d.filter (fun p => !ins.contains p.1)).map (fun p => invalidPiece p.1 mapname "input")

/-- The messages contributed by one per-output metadata map, using
Python's `in` on the stored `output_names` value. -/
def outputMapMsgs (outs : NamesVal) (mapname : String) (d : Dict) : List String :=
  (d.filter (fun p => !namesMem outs p.1)).map (fun p => invalidPiece p.1 mapname "output")

/-- The arity-check message of `_validate`: the number of `input_names`
must match the number of signature parameters. -/
def arityMsgs (c : OpClass) : List String :=
  if c.input_names.length = c.func.params.length then []
  else ["Number of input_names given (" ++ toString c.input_names.length
        ++ ") must match number of inputs for the operation ("
        ++ toString c.func.params.length ++ ")."]

/-- All pieces of `invalid_msg` built by `OperationPlugin._validate`, in
source order: the arity check, then the `input_properties` dict in its
insertion order (fixable, fixed, limits, opts, units, visible), then the
`output_properties` dict (output_shape).  `_validate` raises iff the
concatenation of these pieces is nonempty. -/
def validateMsgs (c : OpClass) : List String :=
  arityMsgs c
    ++ inputMapMsgs c.input_names "fixable" c.fixable
    ++ inputMapMsgs c.input_names "fixed" c.fixed
    ++ inputMapMsgs c.input_names "limits" c.limits
    ++ inputMapMsgs c.input_names "opts" c.opts
    ++ inputMapMsgs c.input_names "units" c.units
    ++ inputMapMsgs c.input_names "visible" c.visible
    ++ outputMapMsgs c.output_names "output_shape" c.output_shape

/-- Whether `_validate` emits the non-fatal missing-outputs warning:
`if not len(cls.output_names)`. -/
def validateWarns (c : OpClass) : Bool :=
  c.output_names.len == 0

/-- The `operation(func, ...)` factory: merge the explicit arguments,
decorator-attached metadata and introspected defaults into a `state`
dict, raise `NameError` when the merged name is `None`, synthesize the
descriptor class and run `_validate`, which raises `ValidationError` when
`invalid_msg` is nonempty. -/
def operation (f : Func) (a : OpArgs) : Except OpError OpClass :=
  match (mergedClass f a).name with
  | none => .error .nameError
  | some _ =>
    if String.join (validateMsgs (mergedClass f a)) = "" then .ok (mergedClass f a)
    else .error (.validationError (String.join (validateMsgs (mergedClass f a))))

/-- A descriptor instance as `OperationPlugin.__init__` leaves it (value
view): the callable and the metadata the instance can reach.  Aliasing
between an instance and its class template is modelled separately below
(`InstOwned`); this record is the plain value of every reachable field
and is what `as_parameter` and `__reduce__` consume. -/
structure Instance where
  func : Func
  filled_values : Dict
  input_names : List String
  output_names : NamesVal
  limits : Dict
  units : Dict
  fixed : Dict
  fixable : Dict
  visible : Dict
  opts : Dict
  output_shape : Dict
  hints : List Value

/-- Instantiating a synthesized descriptor class: every field the class
carries is visible on the instance. -/
def mkInstance (c : OpClass) : Instance :=
  { func := c.func
    filled_values := c.filled_values
    input_names := c.input_names
    output_names := c.output_names
    limits := c.limits
    units := c.units
    fixed := c.fixed
    fixable := c.fixable
    visible := c.visible
    opts := c.opts
    output_shape := c.output_shape
    hints := c.hints }

/-- `__reduce__` followed by reconstruction: pickling rebuilds a bare
`OperationPlugin()` and installs only `_func`, `filled_values`,
`input_names` and `output_names` on it, so every other metadata map falls
back to the base class's empty class-level dict. -/
def reduceReconstruct (i : Instance) : Instance :=
  { func := i.func
    filled_values := i.filled_values
    input_names := i.input_names
    output_names := i.output_names
    limits := []
    units := []
    fixed := []
    fixable := []
    visible := []
    opts := []
    output_shape := []
    hints := [] }

/-- Modelled from the spec: the target editor's known type vocabulary —
the key set of the `PARAM_TYPES` registry that
`pyqtgraph.parametertree.Parameter` ships (an excluded external
collaborator; only its membership matters here).  It contains the
registered editor type names and notably does not contain `"Enum"`. -/
def PARAM_TYPES : List String :=
  ["group", "int", "float", "bool", "str", "color", "colormap", "list",
   "action", "text", "file", "pen", "progress", "font", "calendar", "slider"]

/-- The first `as_parameter` branch test:
`getattr(parameter.annotation, '__name__', None) in PARAM_TYPES` (an
unannotated parameter's sentinel annotation is not in the vocabulary). -/
def isKnownParam (p : Param) : Bool :=
  match p.annot with
  | some t => PARAM_TYPES.contains t
  | none => false

/-- The second branch test:
`getattr(self.input_types[name], "__name__", None) == "Enum"`. -/
def isEnumParam (p : Param) : Bool :=
  p.annot == some "Enum"

/-- `self.opts.get(name, {})`: the option bag stored for one input (the
`opts` decorator always stores a dict there). -/
def getBag (d : Dict) (k : String) : Dict :=
  match pyGet? d k with
  | some (.dict b) => b
  | _ => []

/-- `x or y` where `x` is `self.limits.get(name)`. -/
def pyOrV (x : Option Value) (y : Value) : Value :=
  match x with
  | some v => if vTruthy v then v else y
  | none => y

/-- The `parameter_dict` built by the known-type branch of
`as_parameter`, line for line: the opts bag is applied once before and
once after the structured fields. -/
def projKnown (filled limits units fixed fixable visible bag : Dict) (p : Param) : Dict :=
  let defv := p.default.getD Value.vnone
  let d := pyUpdate [] bag
  let d := pySet d "name" (.str p.name)
  let d := pySet d "default" defv
  let d := pySet d "value" (match pyGet? filled p.name with
    | some v => v
    | none => defv)
  let d := pySet d "type" (match p.annot with
    | some t => .str t
    | none => .vnone)
  let d := if pyContains limits p.name
    then pySet d "limits" ((pyGet? limits p.name).getD .vnone) else d
  let d := pySet d "units" ((pyGet? units p.name).getD .vnone)
  let d := pySet d "fixed" ((pyGet? fixed p.name).getD .vnone)
  let d := pySet d "fixable" ((pyGet? fixable p.name).getD .vnone)
  let d := pySet d "visible" ((pyGet? visible p.name).getD (.bool true))
  pyUpdate d bag

/-- The `parameter_dict` built by the Enum branch of `as_parameter`.  The
source's trailing commas are kept faithfully:
`parameter_dict['values'] = self.limits.get(name) or ["---"],` stores a
one-element tuple wrapping the list, and `parameter_dict['type'] = "list",`
stores the one-element tuple `("list",)`. -/
def projEnum (filled limits units fixed fixable visible bag : Dict) (p : Param) : Dict :=
  let rawDef := p.default.getD Value.vempty
  let d := pySet [] "name" (.str p.name)
  let d := pySet d "value" (match pyGet? filled p.name with
    | some v => v
    | none => rawDef)
  let d := pySet d "values" (Value.tuple [pyOrV (pyGet? limits p.name) (.list [.str "---"])])
  let d := pySet d "default" rawDef
  let d := pySet d "type" (Value.tuple [.str "list"])
  let d := if pyContains limits p.name
    then pySet d "limits" ((pyGet? limits p.name).getD .vnone) else d
  let d := pySet d "units" ((pyGet? units p.name).getD .vnone)
  let d := pySet d "fixed" ((pyGet? fixed p.name).getD .vnone)
  let d := pySet d "fixable" ((pyGet? fixable p.name).getD .vnone)
  let d := pySet d "visible" ((pyGet? visible p.name).getD (.bool true))
  pyUpdate d bag

/-- The loop of `as_parameter` over the signature's parameters, in
declaration order: known types and Enum-typed inputs each get a record,
every other input is skipped. -/
def projInputs (ps : List Param) (filled opts limits units fixed fixable visible : Dict) :
    List Dict :=
  match ps with
  | [] => []
  | p :: rest =>
    let tail := projInputs rest filled opts limits units fixed fixable visible
    if isKnownParam p then
      projKnown filled limits units fixed fixable visible (getBag opts p.name) p :: tail
    else if isEnumParam p then
      projEnum filled limits units fixed fixable visible (getBag opts p.name) p :: tail
    else tail

/-- `OperationPlugin.as_parameter` on a descriptor instance. -/
def asParameter (i : Instance) : List Dict :=
  projInputs i.func.params i.filled_values i.opts i.limits i.units i.fixed i.fixable i.visible

/-- The attributes `OperationPlugin.__init__` assigns on the instance
itself via `.copy()`: `filled_values`, `fixable`, `fixed`, `limits`,
`opts`, `output_shape`, `units` and `hints`.  `visible`,
`input_descriptions` and `output_descriptions` are not in that list, so
reading them on an instance resolves to the class-level dict shared by
every instance of the descriptor class. -/
structure InstOwned where
  filled_values : Dict
  fixable : Dict
  fixed : Dict
  limits : Dict
  opts : Dict
  output_shape : Dict
  units : Dict
  hints : List Value

/-- `OperationPlugin.__init__`: copy the listed class dicts onto the
instance. -/
def initInstance (c : OpClass) : InstOwned :=
  { filled_values := c.filled_values
    fixable := c.fixable
    fixed := c.fixed
    limits := c.limits
    opts := c.opts
    output_shape := c.output_shape
    units := c.units
    hints := c.hints }

/-- Attribute read `inst.visible`: no instance attribute was assigned, so
Python resolves it to the class template's dict. -/
def readVisible (c : OpClass) (_i : InstOwned) : Dict := c.visible

/-- Attribute read `inst.filled_values`: resolves to the instance's own
copy. -/
def readFilledValues (_c : OpClass) (i : InstOwned) : Dict := i.filled_values

/-- `inst.visible[k] = v`: item assignment mutates the dict that
attribute lookup found — here the class-level template, so the write is
visible to the class and to every other instance. -/
def setVisibleItem (c : OpClass) (i : InstOwned) (k : String) (v : Value) :
    OpClass × InstOwned :=
  ({ c with visible := pySet c.visible k v }, i)

/-- `inst.filled_values[k] = v`: mutates the instance's own copy. -/
def setFilledItem (c : OpClass) (i : InstOwned) (k : String) (v : Value) :
    OpClass × InstOwned :=
  (c, { i with filled_values := pySet i.filled_values k v })

/-- `inst.limits[k] = v`: mutates the instance's own copy. -/
def setLimitsItem (c : OpClass) (i : InstOwned) (k : String) (v : Value) :
    OpClass × InstOwned :=
  (c, { i with limits := pySet i.limits k v })

/-- `inst.units[k] = v`: mutates the instance's own copy. -/
def setUnitsItem (c : OpClass) (i : InstOwned) (k : String) (v : Value) :
    OpClass × InstOwned :=
  (c, { i with units := pySet i.units k v })

/-- `inst.fixed[k] = v`: mutates the instance's own copy. -/
def setFixedItem (c : OpClass) (i : InstOwned) (k : String) (v : Value) :
    OpClass × InstOwned :=
  (c, { i with fixed := pySet i.fixed k v })

/-- `inst.fixable[k] = v`: mutates the instance's own copy. -/
def setFixableItem (c : OpClass) (i : InstOwned) (k : String) (v : Value) :
    OpClass × InstOwned :=
  (c, { i with fixable := pySet i.fixable k v })

/-- `inst.opts[k] = v`: mutates the instance's own copy. -/
def setOptsItem (c : OpClass) (i : InstOwned) (k : String) (v : Value) :
    OpClass × InstOwned :=
  (c, { i with opts := pySet i.opts k v })

/-- `inst.output_shape[k] = v`: mutates the instance's own copy. -/
def setOutputShapeItem (c : OpClass) (i : InstOwned) (k : String) (v : Value) :
    OpClass × InstOwned :=
  (c, { i with output_shape := pySet i.output_shape k v })

/-- The merged metadata of a synthesized descriptor class with the bound
callable projected away, for comparing two classes field by field. -/
structure OpMeta where
  name : Option String
  input_names : List String
  output_names : NamesVal
  output_shape : Dict
  input_description : Dict
  input_descriptions : Dict
  output_descriptions : Dict
  categories : List Value
  filled_values : Dict
  limits : Dict
  units : Dict
  fixed : Dict
  fixable : Dict
  visible : Dict
  opts : Dict
  hints : List Value

/-- No-violation condition of `_validate`: the arity check passes, every
key of the six checked per-input maps (`fixable`, `fixed`, `limits`,
`opts`, `units`, `visible`) lies in `input_names`, and every key of the
one checked per-output map (`output_shape`) passes Python's `in` against
the stored `output_names`. -/
def checksOk (c : OpClass) : Prop :=
  c.input_names.length = c.func.params.length
  ∧ (∀ p ∈ c.fixable, c.input_names.contains p.1 = true)
  ∧ (∀ p ∈ c.fixed, c.input_names.contains p.1 = true)
  ∧ (∀ p ∈ c.limits, c.input_names.contains p.1 = true)
  ∧ (∀ p ∈ c.opts, c.input_names.contains p.1 = true)
  ∧ (∀ p ∈ c.units, c.input_names.contains p.1 = true)
  ∧ (∀ p ∈ c.visible, c.input_names.contains p.1 = true)
  ∧ (∀ p ∈ c.output_shape, namesMem c.output_names p.1 = true)

/-- Drop the bound callable, keep every merged metadata field. -/
def classMeta (c : OpClass) : OpMeta :=
  { name := c.name
    input_names := c.input_names
    output_names := c.output_names
    output_shape := c.output_shape
    input_description := c.input_description
    input_descriptions := c.input_descriptions
    output_descriptions := c.output_descriptions
    categories := c.categories
    filled_values := c.filled_values
    limits := c.limits
    units := c.units
    fixed := c.fixed
    fixable := c.fixable
    visible := c.visible
    opts := c.opts
    hints := c.hints }

/-- The current value the projection reports for an included input: its
`filled_values` entry when set, otherwise its signature default — which
the known-type branch normalizes to `None` for a defaultless parameter
while the Enum branch passes the raw `inspect.Parameter.empty` sentinel
through. -/
def projValue (fl : Dict) (p : Param) : Value :=
  match pyGet? fl p.name with
  | some v => v
  | none =>
    if isKnownParam p then p.default.getD Value.vnone else p.default.getD Value.vempty

/-! ### Concrete inputs used by witnesses and counterexamples -/

/-- A plain one-parameter function `def f(x): ...` with no decorators. -/
def fPlain : Func := { intrinsicName := some "f", params := [{ name := "x" }] }

/-- `@describe_input('x', 'deco')` applied to a one-parameter function. -/
def fDescr : Func :=
  describe_input_deco "x" "deco" fPlain

/-- Explicit `input_descriptions={'x': 'explicit'}` factory argument. -/
def aDescr : OpArgs := { input_descriptions := some [("x", .str "explicit")] }

/-- `@opts('x', a=1)` then `@opts('x', b=2)` on the same function. -/
def fOptsTwice : Func :=
  opts_deco "x" [("b", .int 2)] (opts_deco "x" [("a", .int 1)] fPlain)

/-- Explicit `filled_values={'z': 1}` with `z` not an input name. -/
def aFilledBad : OpArgs := { filled_values := some [("z", .int 1)] }

/-- Explicit `limits={'z': [0, 1]}` with `z` not an input name. -/
def aLimitsBad : OpArgs := { limits := some [("z", .list [.int 0, .int 1])] }

/-- An annotated one-parameter function `def f(x: int = 1)`. -/
def fUnits : Func :=
  { intrinsicName := some "f"
    params := [{ name := "x", annot := some "int", default := some (.int 1) }] }

/-- Explicit `units={'x': 'mm'}` factory argument. -/
def aUnits : OpArgs := { units := some [("x", .str "mm")] }

/-- The descriptor class built from `fUnits` with `aUnits`. -/
def cUnits : OpClass := mergedClass fUnits aUnits

/-- The instance of `cUnits`. -/
def iUnits : Instance := mkInstance cUnits

/-- An instance built from `def g(mode: Enum = "a")` with no limits. -/
def iEnum : Instance :=
  mkInstance (mergedClass
    { intrinsicName := some "g"
      params := [{ name := "mode", annot := some "Enum", default := some (.str "a") }] }
    {})

/-- A three-parameter function used by the projection witness: one
recognized type, one unannotated parameter, one Enum. -/
def iMixed : Instance :=
  mkInstance (mergedClass
    { intrinsicName := some "h"
      params := [{ name := "a", annot := some "int", default := some (.int 1) },
                 { name := "b" },
                 { name := "mode", annot := some "Enum", default := some (.str "m") }] }
    {})

/-- An instance with no extra metadata at all (for the roundtrip witness). -/
def iPlain : Instance := mkInstance (mergedClass fPlain {})

/-- A descriptor class whose `visible` template marks `x` visible. -/
def cVis : OpClass :=
  mergedClass fPlain { visible := some [("x", .bool true)] }

/-- A callable with no intrinsic `__name__` whose decorator-attached
display name is the empty string (`display_name("")` on e.g. a partial). -/
def fEmptyName : Func := { intrinsicName := none, attrName := some "" }

/-! ### Dictionary lemmas -/

theorem pyGet?_pySet (d : Dict) (k k' : String) (v : Value) :
    pyGet? (pySet d k v) k' = if k' = k then some v else pyGet? d k' := by
  induction d with
  | nil =>
    by_cases h : k' = k
    · subst h; simp [pySet, pyGet?]
    · simp [pySet, pyGet?, h, show ¬k = k' from fun hh => h (Eq.symm hh)]
  | cons hd tl ih =>
    by_cases h1 : hd.1 = k
    · by_cases h2 : k' = k
      · subst h2; simp [pySet, pyGet?, h1]
      · simp [pySet, pyGet?, h1, h2, show ¬k = k' from fun hh => h2 (Eq.symm hh),
          show ¬hd.1 = k' from h1 ▸ fun hh => h2 (Eq.symm hh)]
    · by_cases h2 : hd.1 = k'
      · have hne : ¬k' = k := fun hh => h1 (h2.trans hh)
        simp [pySet, pyGet?, h1, h2, hne]
      · simp [pySet, pyGet?, h1, h2, ih]

theorem pyUpdate_nil (d : Dict) : pyUpdate d [] = d := rfl

theorem getBag_nil (k : String) : getBag [] k = [] := rfl

/-! ### Emptiness of the aggregated validation message -/

theorem join_data (l : List String) (acc : String) :
    (List.foldl (fun r s => r ++ s) acc l).data = acc.data ++ (l.map String.data).flatten := by
  induction l generalizing acc with
  | nil => simp
  | cons a t ih => simp [List.foldl_cons, ih, String.data_append, List.append_assoc]

theorem str_eq_empty_iff (s : String) : s = "" ↔ s.data = [] := by
  rw [String.ext_iff]

theorem join_eq_empty_iff (l : List String) : String.join l = "" ↔ ∀ s ∈ l, s = "" := by
  have hdata : (String.join l).data = (l.map String.data).flatten := by
    have h0 := join_data l ""
    simp only [show ("" : String).data = [] from rfl, List.nil_append] at h0
    exact h0
  rw [str_eq_empty_iff, hdata, List.flatten_eq_nil_iff]
  constructor
  · intro h s hs
    rw [str_eq_empty_iff]
    exact h s.data (List.mem_map.mpr ⟨s, hs, rfl⟩)
  · intro h L hL
    obtain ⟨s, hs, rfl⟩ := List.mem_map.mp hL
    exact (str_eq_empty_iff s).mp (h s hs)

theorem invalidPiece_ne_empty (a m k : String) : invalidPiece a m k ≠ "" := by
  intro h
  have hd := congrArg String.data h
  simp only [invalidPiece, String.data_append] at hd
  simp at hd

theorem mem_inputMapMsgs_ne_empty (ins : List String) (mn : String) (d : Dict) :
    ∀ s ∈ inputMapMsgs ins mn d, s ≠ "" := by
  intro s hs
  simp only [inputMapMsgs, List.mem_map] at hs
  obtain ⟨p, _, rfl⟩ := hs
  exact invalidPiece_ne_empty _ _ _

theorem mem_outputMapMsgs_ne_empty (outs : NamesVal) (mn : String) (d : Dict) :
    ∀ s ∈ outputMapMsgs outs mn d, s ≠ "" := by
  intro s hs
  simp only [outputMapMsgs, List.mem_map] at hs
  obtain ⟨p, _, rfl⟩ := hs
  exact invalidPiece_ne_empty _ _ _

theorem mem_arityMsgs_ne_empty (c : OpClass) : ∀ s ∈ arityMsgs c, s ≠ "" := by
  intro s hs
  unfold arityMsgs at hs
  split at hs
  · simp at hs
  · simp only [List.mem_singleton] at hs
    subst hs
    intro he
    have hd := congrArg String.data he
    simp only [String.data_append] at hd
    simp at hd

theorem validateMsgs_all_ne_empty (c : OpClass) : ∀ s ∈ validateMsgs c, s ≠ "" := by
  intro s hs
  simp only [validateMsgs, List.mem_append] at hs
  rcases hs with ((((((h | h) | h) | h) | h) | h) | h) | h
  · exact mem_arityMsgs_ne_empty c s h
  · exact mem_inputMapMsgs_ne_empty _ _ _ s h
  · exact mem_inputMapMsgs_ne_empty _ _ _ s h
  · exact mem_inputMapMsgs_ne_empty _ _ _ s h
  · exact mem_inputMapMsgs_ne_empty _ _ _ s h
  · exact mem_inputMapMsgs_ne_empty _ _ _ s h
  · exact mem_inputMapMsgs_ne_empty _ _ _ s h
  · exact mem_outputMapMsgs_ne_empty _ _ _ s h

theorem join_validateMsgs_eq_empty_iff (c : OpClass) :
    String.join (validateMsgs c) = "" ↔ validateMsgs c = [] := by
  rw [join_eq_empty_iff]
  constructor
  · intro h
    cases hv : validateMsgs c with
    | nil => rfl
    | cons a t =>
      exact absurd (h a (hv ▸ List.mem_cons_self a t))
        (validateMsgs_all_ne_empty c a (hv ▸ List.mem_cons_self a t))
  · intro h
    rw [h]
    intro s hs
    simp at hs

theorem arityMsgs_eq_nil_iff (c : OpClass) :
    arityMsgs c = [] ↔ c.input_names.length = c.func.params.length := by
  unfold arityMsgs
  split <;> simp_all

theorem inputMapMsgs_eq_nil_iff (ins : List String) (mn : String) (d : Dict) :
    inputMapMsgs ins mn d = [] ↔ ∀ p ∈ d, ins.contains p.1 = true := by
  simp only [inputMapMsgs, List.map_eq_nil_iff, List.filter_eq_nil_iff]
  constructor
  · intro h p hp
    have := h p hp
    simpa using this
  · intro h p hp
    simpa using h p hp

theorem outputMapMsgs_eq_nil_iff (outs : NamesVal) (mn : String) (d : Dict) :
    outputMapMsgs outs mn d = [] ↔ ∀ p ∈ d, namesMem outs p.1 = true := by
  simp only [outputMapMsgs, List.map_eq_nil_iff, List.filter_eq_nil_iff]
  constructor
  · intro h p hp
    have := h p hp
    simpa using this
  · intro h p hp
    simp [h p hp]

theorem validateMsgs_eq_nil_iff (c : OpClass) : validateMsgs c = [] ↔ checksOk c := by
  simp only [validateMsgs, List.append_eq_nil, arityMsgs_eq_nil_iff,
    inputMapMsgs_eq_nil_iff, outputMapMsgs_eq_nil_iff, checksOk]
  tauto

/-! ### Factory characterization lemmas -/

theorem mergedClass_name (f : Func) (a : OpArgs) :
    (mergedClass f a).name = mergedName f a := rfl

theorem operation_ok_eq (f : Func) (a : OpArgs) (c : OpClass)
    (h : operation f a = .ok c) : c = mergedClass f a := by
  unfold operation at h
  split at h
  · exact absurd h (by simp)
  · split at h
    · injection h with h'
      exact h'.symm
    · exact absurd h (by simp)

theorem operation_ok_mergedName (f : Func) (a : OpArgs) (c : OpClass)
    (h : operation f a = .ok c) : mergedName f a ≠ none := by
  intro hn
  unfold operation at h
  rw [mergedClass_name, hn] at h
  simp at h

theorem operation_nameError_iff (f : Func) (a : OpArgs) :
    operation f a = .error .nameError ↔ mergedName f a = none := by
  cases hn : mergedName f a with
  | none => simp [operation, mergedClass_name, hn]
  | some s =>
    by_cases hj : String.join (validateMsgs (mergedClass f a)) = "" <;>
      simp [operation, mergedClass_name, hn, hj]

theorem operation_validationErr_iff (f : Func) (a : OpArgs)
    (h : mergedName f a ≠ none) :
    (∃ m, operation f a = .error (.validationError m)) ↔
      ¬checksOk (mergedClass f a) := by
  cases hn : mergedName f a with
  | none => exact absurd hn h
  | some s =>
    by_cases hj : String.join (validateMsgs (mergedClass f a)) = ""
    · simp only [operation, mergedClass_name, hn, hj, if_pos]
      constructor
      · intro ⟨m, hm⟩
        exact absurd hm (by simp)
      · intro hok
        exact absurd ((validateMsgs_eq_nil_iff _).mp
          ((join_validateMsgs_eq_empty_iff _).mp hj)) hok
    · simp only [operation, mergedClass_name, hn, hj, if_neg]
      constructor
      · intro _ hok
        exact hj ((join_validateMsgs_eq_empty_iff _).mpr
          ((validateMsgs_eq_nil_iff _).mpr hok))
      · intro _
        exact ⟨_, rfl⟩

theorem mergedName_eq_none_iff (f : Func) (a : OpArgs) :
    mergedName f a = none ↔
      (a.name = none ∨ a.name = some "") ∧ f.attrName = none ∧ f.intrinsicName = none := by
  unfold mergedName strOr
  cases hn : a.name with
  | none =>
    cases ha : f.attrName with
    | none => simp
    | some t => simp
  | some s =>
    by_cases hs : s.isEmpty = true
    · have hs' : s = "" := (String.isEmpty_iff s).mp hs
      subst hs'
      cases ha : f.attrName with
      | none => simp [hs]
      | some t => simp [hs]
    · have hs' : ¬s = "" := fun hh => hs ((String.isEmpty_iff s).mpr hh)
      cases ha : f.attrName with
      | none => simp [hs, hs']
      | some t => simp [hs, hs']

/-! ### Projection lemmas (for an instance with no attached opts) -/

theorem projKnown_get_name (fl li un fx fb vi : Dict) (p : Param) :
    pyGet? (projKnown fl li un fx fb vi [] p) "name" = some (.str p.name) := by
  unfold projKnown
  by_cases h : pyContains li p.name = true <;>
    simp [h, pyGet?_pySet, pyUpdate]

theorem projKnown_get_value (fl li un fx fb vi : Dict) (p : Param) :
    pyGet? (projKnown fl li un fx fb vi [] p) "value"
      = some (match pyGet? fl p.name with
          | some v => v
          | none => p.default.getD Value.vnone) := by
  unfold projKnown
  by_cases h : pyContains li p.name = true <;>
    simp [h, pyGet?_pySet, pyUpdate]

theorem projKnown_get_visible (fl li un fx fb vi : Dict) (p : Param) :
    pyGet? (projKnown fl li un fx fb vi [] p) "visible"
      = some ((pyGet? vi p.name).getD (.bool true)) := by
  unfold projKnown
  by_cases h : pyContains li p.name = true <;>
    simp [h, pyGet?_pySet, pyUpdate]

theorem projEnum_get_name (fl li un fx fb vi : Dict) (p : Param) :
    pyGet? (projEnum fl li un fx fb vi [] p) "name" = some (.str p.name) := by
  unfold projEnum
  by_cases h : pyContains li p.name = true <;>
    simp [h, pyGet?_pySet, pyUpdate]

theorem projEnum_get_value (fl li un fx fb vi : Dict) (p : Param) :
    pyGet? (projEnum fl li un fx fb vi [] p) "value"
      = some (match pyGet? fl p.name with
          | some v => v
          | none => p.default.getD Value.vempty) := by
  unfold projEnum
  by_cases h : pyContains li p.name = true <;>
    simp [h, pyGet?_pySet, pyUpdate]

theorem projEnum_get_visible (fl li un fx fb vi : Dict) (p : Param) :
    pyGet? (projEnum fl li un fx fb vi [] p) "visible"
      = some ((pyGet? vi p.name).getD (.bool true)) := by
  unfold projEnum
  by_cases h : pyContains li p.name = true <;>
    simp [h, pyGet?_pySet, pyUpdate]

theorem projInputs_get_name (ps : List Param) (fl li un fx fb vi : Dict) :
    (projInputs ps fl [] li un fx fb vi).map (fun d => pyGet? d "name")
      = (ps.filter (fun p => isKnownParam p || isEnumParam p)).map
          (fun p => some (Value.str p.name)) := by
  induction ps with
  | nil => rfl
  | cons p rest ih =>
    by_cases h1 : isKnownParam p = true
    · simp [projInputs, h1, getBag_nil, projKnown_get_name, ih, List.filter_cons]
    · by_cases h2 : isEnumParam p = true
      · simp [projInputs, h1, h2, getBag_nil, projEnum_get_name, ih, List.filter_cons]
      · simp [projInputs, h1, h2, ih, List.filter_cons]

theorem projInputs_get_value (ps : List Param) (fl li un fx fb vi : Dict) :
    (projInputs ps fl [] li un fx fb vi).map (fun d => pyGet? d "value")
      = (ps.filter (fun p => isKnownParam p || isEnumParam p)).map
          (fun p => some (projValue fl p)) := by
  induction ps with
  | nil => rfl
  | cons p rest ih =>
    by_cases h1 : isKnownParam p = true
    · simp [projInputs, h1, getBag_nil, projKnown_get_value, ih, List.filter_cons,
        projValue]
    · by_cases h2 : isEnumParam p = true
      · simp [projInputs, h1, h2, getBag_nil, projEnum_get_value, ih, List.filter_cons,
          projValue]
      · simp [projInputs, h1, h2, ih, List.filter_cons]

theorem projInputs_get_visible (ps : List Param) (fl li un fx fb vi : Dict) :
    (projInputs ps fl [] li un fx fb vi).map (fun d => pyGet? d "visible")
      = (ps.filter (fun p => isKnownParam p || isEnumParam p)).map
          (fun p => some ((pyGet? vi p.name).getD (.bool true))) := by
  induction ps with
  | nil => rfl
  | cons p rest ih =>
    by_cases h1 : isKnownParam p = true
    · simp [projInputs, h1, getBag_nil, projKnown_get_visible, ih, List.filter_cons]
    · by_cases h2 : isEnumParam p = true
      · simp [projInputs, h1, h2, getBag_nil, projEnum_get_visible, ih, List.filter_cons]
      · simp [projInputs, h1, h2, ih, List.filter_cons]

theorem except_map_classMeta_operation (f1 f2 : Func) (a1 a2 : OpArgs)
    (h1 : classMeta (mergedClass f1 a1) = classMeta (mergedClass f2 a2))
    (h2 : f1.params = f2.params) :
    Except.map classMeta (operation f1 a1) = Except.map classMeta (operation f2 a2) := by
  have hname : (mergedClass f1 a1).name = (mergedClass f2 a2).name :=
    congrArg OpMeta.name h1
  have hmsgs : validateMsgs (mergedClass f1 a1) = validateMsgs (mergedClass f2 a2) := by
    have hin : (mergedClass f1 a1).input_names = (mergedClass f2 a2).input_names :=
      congrArg OpMeta.input_names h1
    have hon : (mergedClass f1 a1).output_names = (mergedClass f2 a2).output_names :=
      congrArg OpMeta.output_names h1
    have hfb : (mergedClass f1 a1).fixable = (mergedClass f2 a2).fixable :=
      congrArg OpMeta.fixable h1
    have hfx : (mergedClass f1 a1).fixed = (mergedClass f2 a2).fixed :=
      congrArg OpMeta.fixed h1
    have hli : (mergedClass f1 a1).limits = (mergedClass f2 a2).limits :=
      congrArg OpMeta.limits h1
    have hop : (mergedClass f1 a1).opts = (mergedClass f2 a2).opts :=
      congrArg OpMeta.opts h1
    have hun : (mergedClass f1 a1).units = (mergedClass f2 a2).units :=
      congrArg OpMeta.units h1
    have hvi : (mergedClass f1 a1).visible = (mergedClass f2 a2).visible :=
      congrArg OpMeta.visible h1
    have hos : (mergedClass f1 a1).output_shape = (mergedClass f2 a2).output_shape :=
      congrArg OpMeta.output_shape h1
    have hp : (mergedClass f1 a1).func.params = (mergedClass f2 a2).func.params := h2
    unfold validateMsgs arityMsgs
    rw [hin, hon, hfb, hfx, hli, hop, hun, hvi, hos, hp]
  unfold operation
  rw [hname, hmsgs]
  cases hn : (mergedClass f2 a2).name with
  | none => rfl
  | some s =>
    by_cases hj : String.join (validateMsgs (mergedClass f2 a2)) = "" <;>
      simp [hj, Except.map, h1]

/-! ### Claims -/

/-- C1: for a callable with no output names supplied by decorator or
explicit argument, the claim says the built descriptor's `output_names`
is the empty sequence and the missing-outputs warning is emitted.  On the
code, the `getattr(func, "__name__", tuple())` fallback instead stores
the callable's intrinsic name as a bare string (here `"f"`), whose length
is nonzero, so `_validate` does not emit the warning. -/
theorem c1_no_output_names_falls_back_to_intrinsic_name :
    operation fPlain {} = .ok (mergedClass fPlain {})
    ∧ (mergedClass fPlain {}).output_names = .str "f"
    ∧ validateWarns (mergedClass fPlain {}) = false :=
  ⟨rfl, rfl, rfl⟩

/-- C2 counterexample: a `filled_values` entry whose key `"z"` is not an
input name does not fail validation — construction succeeds, refuting the
claim that every per-input metadata map is key-checked. -/
theorem c2_unchecked_filled_values_key_accepted :
    operation fPlain aFilledBad = .ok (mergedClass fPlain aFilledBad)
    ∧ pyGet? (mergedClass fPlain aFilledBad).filled_values "z" = some (.int 1)
    ∧ (mergedClass fPlain aFilledBad).input_names.contains "z" = false :=
  ⟨rfl, rfl, rfl⟩

/-- C2 (amended): with a resolvable name, construction fails with a
`ValidationError` exactly when the arity check fails, or some key of one
of the six checked per-input maps (`fixable`, `fixed`, `limits`, `opts`,
`units`, `visible`) is not a member of `input_names`, or some key of
`output_shape` fails Python's `in` against `output_names`; the maps
`filled_values`, `input_descriptions` and `output_descriptions` are never
key-checked. -/
theorem c2_validation_checked_maps_iff (f : Func) (a : OpArgs)
    (h : mergedName f a ≠ none) :
    (∃ m, operation f a = .error (.validationError m)) ↔
      ¬checksOk (mergedClass f a) :=
  operation_validationErr_iff f a h

/-- C2 witness: the checked-map characterization applied to a concrete
build with a bad `limits` key. -/
theorem c2_validation_checked_maps_witness :
    (∃ m, operation fPlain aLimitsBad = .error (.validationError m)) ↔
      ¬checksOk (mergedClass fPlain aLimitsBad) :=
  c2_validation_checked_maps_iff fPlain aLimitsBad (fun h => Option.noConfusion h)

/-- C3: the claim (and §4.3 of the spec) says an explicit factory
argument wins for every metadata field.  For `input_descriptions` the
`state` dict stores the merged value under the misspelled key
`"input_description"` (line 395), so the built descriptor's
`input_descriptions` attribute remains the base class's empty dict and
the explicit value never reaches it. -/
theorem c3_input_descriptions_typo_drops_explicit_value :
    operation fDescr aDescr = .ok (mergedClass fDescr aDescr)
    ∧ (mergedClass fDescr aDescr).input_descriptions = []
    ∧ (mergedClass fDescr aDescr).input_description = [("x", .str "explicit")] :=
  ⟨rfl, rfl, rfl⟩

/-- C4 counterexample: toggling the `visible` flag through one instance
mutates the class-level template (and hence what every other instance
reads), refuting the claim that every exposed metadata map is an
independent per-instance copy. -/
theorem c4_visible_edit_mutates_shared_template :
    readVisible (setVisibleItem cVis (initInstance cVis) "x" (.bool false)).1
        (initInstance cVis) = [("x", Value.bool false)]
    ∧ cVis.visible = [("x", Value.bool true)]
    ∧ (setVisibleItem cVis (initInstance cVis) "x" (.bool false)).1.visible
        ≠ cVis.visible := by
  refine ⟨rfl, rfl, fun h => ?_⟩
  have h' : [("x", Value.bool false)] = [("x", Value.bool true)] := h
  simp at h'

/-- C4 (amended): `__init__` copies exactly `filled_values`, `fixable`,
`fixed`, `limits`, `opts`, `output_shape`, `units` (and `hints`), so
per-instance edits to those maps leave the class template unchanged;
`visible` (like the description maps) is not copied, so an edit to it
goes to the shared class-level dict and is seen by every instance. -/
theorem c4_copied_vs_shared_maps (c : OpClass) (i : InstOwned) (k : String) (v : Value) :
    (setFilledItem c i k v).1 = c
    ∧ (setFixableItem c i k v).1 = c
    ∧ (setFixedItem c i k v).1 = c
    ∧ (setLimitsItem c i k v).1 = c
    ∧ (setOptsItem c i k v).1 = c
    ∧ (setOutputShapeItem c i k v).1 = c
    ∧ (setUnitsItem c i k v).1 = c
    ∧ (setVisibleItem c i k v).1 = { c with visible := pySet c.visible k v }
    ∧ (setVisibleItem c i k v).2 = i
    ∧ readVisible (setVisibleItem c i k v).1 (initInstance c) = pySet c.visible k v :=
  ⟨rfl, rfl, rfl, rfl, rfl, rfl, rfl, rfl, rfl, rfl⟩

/-- C5 counterexample: after `@opts('x', a=1)` then `@opts('x', b=2)`,
the stored bag for `x` is exactly `{'b': 2}` — the earlier-only key `a`
is gone, refuting the claimed merge semantics. -/
theorem c5_second_opts_application_drops_earlier_keys :
    pyGet? (fOptsTwice.attrOpts.getD []) "x" = some (.dict [("b", .int 2)])
    ∧ pyGet? (getBag (fOptsTwice.attrOpts.getD []) "x") "a" = none
    ∧ pyGet? (getBag (fOptsTwice.attrOpts.getD []) "x") "b" = some (.int 2) :=
  ⟨rfl, rfl, rfl⟩

/-- C5 (amended): a second `opts` application for the same input name
replaces the entire option bag for that name — the final entry is exactly
the later keyword bag, for any callable and any two bags. -/
theorem c5_later_opts_application_replaces_bag (f : Func) (n : String) (o1 o2 : Dict) :
    pyGet? ((opts_deco n o2 (opts_deco n o1 f)).attrOpts.getD []) n
      = some (.dict o2) := by
  simp [opts_deco, pyGet?_pySet]

/-- C6: supplying the bare string `"result"` as `output_names` is
equivalent to supplying the singleton sequence — via the explicit factory
argument (results identical), and via the `output_names` decorator (all
merged metadata identical; only the stored callable's attached attribute
differs) — and the resulting descriptor's `output_names` is `("result",)`. -/
theorem c6_output_names_string_equiv_singleton (f : Func) (a : OpArgs)
    (h : a.output_names = none) :
    operation f { a with output_names := some (.str "result") }
        = operation f { a with output_names := some (.seq ["result"]) }
    ∧ Except.map classMeta (operation (output_names_deco ["result"] f) a)
        = Except.map classMeta (operation f { a with output_names := some (.seq ["result"]) })
    ∧ (∀ c, operation f { a with output_names := some (.seq ["result"]) } = .ok c →
        c.output_names = .tup ["result"]) := by
  obtain ⟨a1, a2, a3, a4, a5, a6, a7, a8, a9, a10, a11, a12, a13, a14⟩ := a
  have h5 : a5 = none := h
  subst h5
  refine ⟨rfl, ?_, ?_⟩
  · exact except_map_classMeta_operation _ _ _ _ rfl rfl
  · intro c hc
    rw [operation_ok_eq _ _ _ hc]
    rfl

/-- C6 witness: the equivalence at a concrete plain function with no
other arguments. -/
theorem c6_output_names_string_equiv_singleton_witness :
    operation fPlain { output_names := some (.str "result") }
        = operation fPlain { output_names := some (.seq ["result"]) }
    ∧ Except.map classMeta (operation (output_names_deco ["result"] fPlain) {})
        = Except.map classMeta (operation fPlain { output_names := some (.seq ["result"]) })
    ∧ (∀ c, operation fPlain { output_names := some (.seq ["result"]) } = .ok c →
        c.output_names = .tup ["result"]) :=
  c6_output_names_string_equiv_singleton fPlain {} rfl

/-- C7 counterexample: a built descriptor with a `units` entry projects
`'units': 'mm'`, but the instance reconstructed from the minimal
`__reduce__` tuple has lost the units map and projects `'units': None`,
so the two projections differ. -/
theorem c7_reduce_loses_units_changes_projection :
    operation fUnits aUnits = .ok cUnits
    ∧ pyGet? ((asParameter iUnits).headD []) "units" = some (.str "mm")
    ∧ pyGet? ((asParameter (reduceReconstruct iUnits)).headD []) "units" = some Value.vnone
    ∧ asParameter (reduceReconstruct iUnits) ≠ asParameter iUnits := by
  refine ⟨rfl, rfl, rfl, fun h => ?_⟩
  have h' := congrArg (fun l => pyGet? (l.headD []) "units") h
  have h2 : some Value.vnone = some (Value.str "mm") := h'
  simp at h2

/-- C7 (amended): the reduce/reconstruct roundtrip preserves the
parameter projection exactly when the descriptor instance carries no
metadata beyond the four reduced fields — i.e. when its `limits`,
`units`, `fixed`, `fixable`, `visible` and `opts` maps are all empty. -/
theorem c7_reduce_roundtrip_projection_of_plain (i : Instance)
    (hl : i.limits = []) (hu : i.units = []) (hf : i.fixed = [])
    (hb : i.fixable = []) (hv : i.visible = []) (ho : i.opts = []) :
    asParameter (reduceReconstruct i) = asParameter i := by
  simp [asParameter, reduceReconstruct, hl, hu, hf, hb, hv, ho]

/-- C7 witness: the roundtrip preservation at a concrete metadata-free
instance. -/
theorem c7_reduce_roundtrip_projection_witness :
    asParameter (reduceReconstruct iPlain) = asParameter iPlain :=
  c7_reduce_roundtrip_projection_of_plain iPlain rfl rfl rfl rfl rfl rfl

/-- C8 counterexample: an input annotated `Enum` is not in the editor's
type vocabulary, yet the projection includes it (inclusion set is not
"exactly the vocabulary members"), refuting the claimed omission rule. -/
theorem c8_enum_included_despite_unknown_type :
    (asParameter iEnum).length = 1
    ∧ PARAM_TYPES.contains "Enum" = false
    ∧ isKnownParam { name := "mode", annot := some "Enum", default := some (.str "a") }
        = false :=
  ⟨rfl, rfl, rfl⟩

/-- C8 (amended): with no attached opts, the projection contains, in
declaration order, exactly the inputs whose annotation is in the editor
vocabulary or is `Enum`; each record's `value` is the `filled_values`
entry when set and otherwise the signature default (`None`-normalized in
the known-type branch, the raw empty sentinel in the Enum branch), and
`visible` defaults to true when no entry was declared. -/
theorem c8_projection_filter_and_fields (i : Instance) (ho : i.opts = []) :
    ((asParameter i).map (fun d => pyGet? d "name")
        = (i.func.params.filter (fun p => isKnownParam p || isEnumParam p)).map
            (fun p => some (Value.str p.name)))
    ∧ ((asParameter i).map (fun d => pyGet? d "value")
        = (i.func.params.filter (fun p => isKnownParam p || isEnumParam p)).map
            (fun p => some (projValue i.filled_values p)))
    ∧ ((asParameter i).map (fun d => pyGet? d "visible")
        = (i.func.params.filter (fun p => isKnownParam p || isEnumParam p)).map
            (fun p => some ((pyGet? i.visible p.name).getD (.bool true)))) := by
  unfold asParameter
  rw [ho]
  exact ⟨projInputs_get_name i.func.params i.filled_values i.limits i.units i.fixed
          i.fixable i.visible,
        projInputs_get_value i.func.params i.filled_values i.limits i.units i.fixed
          i.fixable i.visible,
        projInputs_get_visible i.func.params i.filled_values i.limits i.units i.fixed
          i.fixable i.visible⟩

/-- C8 witness: the filter-and-fields characterization evaluated at a
three-input instance (recognized `int`, unannotated, `Enum`): the
unannotated input is omitted, the other two appear in order with their
defaults. -/
theorem c8_projection_filter_and_fields_witness :
    ((asParameter iMixed).map (fun d => pyGet? d "name")
        = [some (Value.str "a"), some (Value.str "mode")])
    ∧ ((asParameter iMixed).map (fun d => pyGet? d "value")
        = [some (Value.int 1), some (Value.str "m")])
    ∧ ((asParameter iMixed).map (fun d => pyGet? d "visible")
        = [some (Value.bool true), some (Value.bool true)]) :=
  c8_projection_filter_and_fields iMixed rfl

/-- C9: the claim (after §4.5) says an Enum-typed input is projected with
a plain selection type tag and an allowed-values set defaulting to a
single placeholder.  The code's trailing commas instead store the
one-element tuple `("list",)` as the type and the one-element tuple
wrapping the placeholder list as `values`. -/
theorem c9_enum_projection_tuple_wrapped_fields :
    pyGet? ((asParameter iEnum).headD []) "type" = some (.tuple [.str "list"])
    ∧ pyGet? ((asParameter iEnum).headD []) "values" = some (.tuple [.list [.str "---"]])
    ∧ some (Value.tuple [.str "list"]) ≠ some (Value.str "list") :=
  ⟨rfl, rfl, by simp⟩

/-- C10 counterexample: with `display_name("")` attached (and no other
name source), the merged name is the empty string, which is not `None`,
so the build succeeds and yields a descriptor whose name is empty —
refuting both the claimed naming failure and the claimed non-empty-name
consequence. -/
theorem c10_empty_attr_name_builds_successfully :
    operation fEmptyName {} = .ok (mergedClass fEmptyName {})
    ∧ (mergedClass fEmptyName {}).name = some "" :=
  ⟨rfl, rfl⟩

/-- C10 (amended): a build fails with the naming error exactly when the
explicit `name` argument is absent or empty and the callable has neither
a decorator-attached `name` attribute nor an intrinsic `__name__` —
presence of an empty-string source suffices to build.  Every successfully
constructed descriptor has a non-`None` (but possibly empty) name. -/
theorem c10_name_resolution (f : Func) (a : OpArgs) :
    (operation f a = .error .nameError ↔
      (a.name = none ∨ a.name = some "") ∧ f.attrName = none ∧ f.intrinsicName = none)
    ∧ (∀ c, operation f a = .ok c → c.name ≠ none) := by
  constructor
  · rw [operation_nameError_iff, mergedName_eq_none_iff]
  · intro c hc hne
    have h1 := operation_ok_mergedName f a c hc
    rw [operation_ok_eq f a c hc] at hne
    exact h1 hne

/-- C10 witness: the naming characterization at a concrete named
function (which therefore cannot fail with the naming error). -/
theorem c10_name_resolution_witness :
    (operation fPlain {} = .error .nameError ↔
      ((({} : OpArgs).name = none ∨ ({} : OpArgs).name = some "")
        ∧ fPlain.attrName = none ∧ fPlain.intrinsicName = none))
    ∧ (∀ c, operation fPlain {} = .ok c → c.name ≠ none) :=
  c10_name_resolution fPlain {}

end Xicam
